import Mathlib

/-!
Verification of the core claims of the `ros` kernel against a shallow Lean
embedding of its Rust sources.

Conventions used throughout:
* machine integers (`usize`/`u32` on this 32-bit target) are modelled as `Nat`
  with explicit `% 2^32` where wrapping matters;
* fallible / panicking code returns `Option` (`none` = panic or, where noted,
  divergence of the original loop);
* shared mutable state is passed explicitly.
-/

namespace Ros

/-! ## Constants (src/x86/mmu/mod.rs, src/process/fd.rs) -/

def PAGE_SHIFT : Nat := 12

def PAGE_SIZE : Nat := 1 <<< PAGE_SHIFT

def KERNEL_RELOC_BASE : Nat := 0xf0000000

def U32_SIZE : Nat := 2 ^ 32

def PIPE_BUF_LEN : Nat := 1 <<< 16

def CONSOLE_BUFSIZE : Nat := 4096

/-- `mmu::page_align_down`: `addr & PAGE_MASK` (for `addr < 2^32`). -/
def page_align_down (addr : Nat) : Nat := addr - addr % PAGE_SIZE

/-- `mmu::page_align_up`: rounds up to the next page, `None` if
`addr.checked_add(!PAGE_MASK)` overflows the 32-bit `usize`. -/
def page_align_up (addr : Nat) : Option Nat :=
  if addr + (PAGE_SIZE - 1) < U32_SIZE then some (page_align_down (addr + (PAGE_SIZE - 1)))
  else none

/-- `u32::wrapping_neg` on a 32-bit `usize`. -/
def wrapping_neg32 (x : Nat) : Nat := (U32_SIZE - x % U32_SIZE) % U32_SIZE

/-! ## Pipes (src/process/fd.rs)

A pipe's two halves share one `Rc<RefCell<VecDeque<u8>>>`.  `Rc::strong_count`
seen from a live half is `2` when the opposite half is still open and `1` when
it has been dropped; the model stores the two halves' liveness as Booleans.
The `VecDeque`'s allocated capacity is modelled idealized-minimally: a fresh
`VecDeque::new()` and `shrink_to_fit` give the minimal capacity, `push_back`
grows it monotonically.  Bytes are `Nat`s. -/

structure PipeState where
  data : List Nat
  cap : Nat
  readerOpen : Bool
  writerOpen : Bool
  deriving Repr, DecidableEq

/-- `fd::pipe()`: fresh buffer, both halves open. -/
def pipe : PipeState := ⟨[], 0, true, true⟩

/-- `<PipeRead as File>::read`, returning the bytes read (their number is the
returned `Ok` count) and the successor buffer state.  `strong_count == 1` at
the read half means the writer has been dropped. -/
def PipeRead.read (s : PipeState) (bufLen : Nat) : List Nat × PipeState :=
  if s.data = [] ∧ s.writerOpen = false then
    ([], { s with cap := 0 })
  else
    let count := min bufLen s.data.length
    (s.data.take count, { s with data := s.data.drop count })

/-- `<PipeWrite as File>::write`, returning the `Ok` count and the successor
buffer state.  `strong_count == 1` at the write half means the reader has been
dropped. -/
def PipeWrite.write (s : PipeState) (buf : List Nat) : Nat × PipeState :=
  if s.readerOpen = false then
    (buf.length, { s with data := [], cap := 0 })
  else
    let count := min buf.length (PIPE_BUF_LEN - s.data.length)
    (count, { s with data := s.data ++ buf.take count,
                     cap := max s.cap (s.data.length + count) })

/-- A sequence of writes to the write half (used for the persistence part of
the reader-closed claim). -/
def PipeWrite.writeAll (s : PipeState) (bufs : List (List Nat)) : PipeState :=
  bufs.foldl (fun t b => (PipeWrite.write t b).2) s

/-! ## Console input ring (src/process/fd.rs, `ConsoleBuffer`)

Modelled after initialization (`buf` non-null); `recv_input` is the IRQ-side
producer.  `read_lock`/`write_lock` are re-entrancy diagnostics with no effect
on the sequential ring state and are omitted. -/

structure ConsoleBuffer where
  buf : Nat → Nat
  rpos : Nat
  epos : Nat
  wpos : Nat

/-- `ConsoleBuffer::recv_input`: drop the byte if the ring is full
(`wpos == rpos.checked_sub(1).unwrap_or(CONSOLE_BUFSIZE - 1)`), else store it
at `wpos` and advance `wpos` modulo the ring size. -/
def ConsoleBuffer.recv_input (s : ConsoleBuffer) (c : Nat) : ConsoleBuffer :=
  if s.wpos = (if s.rpos = 0 then CONSOLE_BUFSIZE - 1 else s.rpos - 1) then s
  else { s with buf := Function.update s.buf s.wpos c,
                wpos := (s.wpos + 1) % CONSOLE_BUFSIZE }

/-! ## BIOS memory map and bump allocator (src/x86/mmu/palloc.rs)

`MemoryRegion` carries the raw `u64` fields; everywhere the Rust code casts
them with `as usize` (32-bit) the model truncates with `% 2^32`. -/

structure MemoryRegion where
  start : Nat
  length : Nat
  kind : Nat
  attributes : Nat
  deriving Repr, DecidableEq

def MemoryRegion.should_ignore (r : MemoryRegion) : Bool := r.attributes % 2 = 0

def MemoryRegion.is_usable (r : MemoryRegion) : Bool := r.kind = 1

/-- `self.start as usize` (u64 → 32-bit usize truncation). -/
def MemoryRegion.startUsize (r : MemoryRegion) : Nat := r.start % U32_SIZE

/-- `self.length as usize` (u64 → 32-bit usize truncation). -/
def MemoryRegion.lengthUsize (r : MemoryRegion) : Nat := r.length % U32_SIZE

/-- `MemoryRegion::is_after`: every address of the region comes after the
given `[start, start+length)` block. -/
def MemoryRegion.is_after (r : MemoryRegion) (start length : Nat) : Bool :=
  decide (start < r.startUsize ∧ length ≤ r.startUsize - start)

/-- `MemoryRegion::is_before`: every address of the region comes before
`start`. -/
def MemoryRegion.is_before (r : MemoryRegion) (start : Nat) : Bool :=
  decide (r.startUsize < start ∧ r.lengthUsize ≤ start - r.startUsize)

/-- `usize::checked_add`. -/
def checked_add32 (a b : Nat) : Option Nat :=
  if a + b < U32_SIZE then some (a + b) else none

structure BumpAllocator where
  next_addr : Option Nat
  first_active_region_idx : Nat
  memory_map : List MemoryRegion
  deriving Repr, DecidableEq

/-- Outcome of one pass of `find_next`'s inner `for` loop. -/
inductive ForOut where
  /-- A `?` fired (an address computation overflowed): `find_next` as a whole
  returns `None`, with `first_active_region_idx` as updated so far. -/
  | overflow (idx : Nat)
  /-- The `for` loop ended or `break`-ed, leaving `addr`,
  `first_active_region_idx` and `is_usable` as given. -/
  | next (addr idx : Nat) (usable : Bool)
  deriving Repr, DecidableEq

/-- One pass of the `for region in self.memory_map.iter().skip(idx)` loop in
`BumpAllocator::find_next`.  `regions` is the remaining suffix of the map;
the reserved-intersection arm and the fall-through of the
`is_after && is_first` arm duplicate the shared tail of the Rust loop body. -/
def BumpAllocator.forPass :
    List MemoryRegion → Nat → Nat → Bool → Bool → ForOut
  | [], addr, idx, _, is_usable => .next addr idx is_usable
  | r :: rest, addr, idx, is_first, is_usable =>
    if !r.should_ignore && r.is_after addr PAGE_SIZE then
      if is_first then
        match page_align_up r.startUsize with
        | none => .overflow idx
        | some a2 =>
          -- fall through: the page now "intersects" the region
          if r.is_usable then BumpAllocator.forPass rest a2 idx false true
          else
            match (checked_add32 r.startUsize r.lengthUsize).bind page_align_up with
            | none => .overflow idx
            | some a3 => .next a3 idx false
      else .next addr idx is_usable   -- break
    else if r.should_ignore || r.is_before addr then
      BumpAllocator.forPass rest addr (if is_first then idx + 1 else idx) is_first is_usable
    else
      if r.is_usable then BumpAllocator.forPass rest addr idx false true
      else
        match (checked_add32 r.startUsize r.lengthUsize).bind page_align_up with
        | none => .overflow idx
        | some a3 => .next a3 idx false

/-- The `while !is_usable` loop of `BumpAllocator::find_next`.  The source
loop can spin forever on degenerate maps (e.g. a non-ignored reserved region
whose `u64` length truncates to 0 at a page-aligned start), so the model
takes fuel; `none` means the fuel ran out, `some (r, idx)` means the loop
finished with result `r` and `first_active_region_idx = idx`. -/
def BumpAllocator.findNextLoop (fuel : Nat) (map : List MemoryRegion)
    (addr idx : Nat) : Option (Option Nat × Nat) :=
  match fuel with
  | 0 => none
  | fuel + 1 =>
    if map.length ≤ idx then some (none, idx)
    else
      match BumpAllocator.forPass (map.drop idx) addr idx true false with
      | .overflow idx2 => some (none, idx2)
      | .next addr2 idx2 true => some (some addr2, idx2)
      | .next addr2 idx2 false => BumpAllocator.findNextLoop fuel map addr2 idx2

/-- `BumpAllocator::find_next`. -/
def BumpAllocator.find_next (fuel : Nat) (b : BumpAllocator) (addr : Nat) :
    Option (Option Nat × BumpAllocator) :=
  match page_align_up addr with
  | none => some (none, b)   -- `?`: out of usable memory
  | some a =>
    match BumpAllocator.findNextLoop fuel b.memory_map a b.first_active_region_idx with
    | none => none
    | some (r, idx) => some (r, { b with first_active_region_idx := idx })

/-- `BumpAllocator::alloc`. -/
def BumpAllocator.alloc (fuel : Nat) (b : BumpAllocator) :
    Option (Option Nat × BumpAllocator) :=
  match b.next_addr with
  | none => some (none, b)
  | some result =>
    match BumpAllocator.find_next fuel b (result + PAGE_SIZE) with
    | none => none
    | some (na, b2) => some (some result, { b2 with next_addr := na })

/-! ## Per-frame page info (src/x86/mmu/palloc.rs, `PhysPageInfo`)

`PhysPageInfo` is an untagged 32-bit union; the model keeps the raw word.
`allocated` view: bits 0..30 = refcount (`B31`), bit 31 = copy_on_write.
`free` view: the whole word is the `Option<NonZeroUsize>` link (0 = `None`). -/

def AllocatedPageInfo.refcount (w : Nat) : Nat := w % 2 ^ 31

def AllocatedPageInfo.copy_on_write (w : Nat) : Bool := w / 2 ^ 31 % 2 = 1

/-- `set_refcount` keeps the cow bit; claims never exercise values ≥ 2^31,
where `modular_bitfield`'s setter would instead panic. -/
def AllocatedPageInfo.set_refcount (w r : Nat) : Nat :=
  w / 2 ^ 31 * 2 ^ 31 + r % 2 ^ 31

def PhysPageInfo.free_link (w : Nat) : Option Nat :=
  if w = 0 then none else some w

def PhysPageInfo.encode_free (link : Option Nat) : Nat := link.getD 0

/-! ## Mapper and allocator state

The per-page mapping state is kept at the granularity `get_mapping` exposes:
`pte pageIdx` is the entry the recursive-pagetable walk would return for that
page (or `none` if the pagetable or the entry is absent).  Pagetable frames,
the recursive-mapping window and the copy-on-write state of the `PhysPageInfo`
array pages themselves are below this abstraction, so `map_ensure_pagetable`
and the `get_page_info_mut` indirection act directly on the state.  Page
contents are abstracted to one `Nat` per physical frame. -/

structure MappingPte where
  is_writable : Bool
  userspace_accessible : Bool
  physaddr : Nat
  deriving Repr, DecidableEq

structure MappingFlags where
  writable : Bool
  user_accessible : Bool
  deriving Repr, DecidableEq

structure KState where
  /-- page index (vaddr / PAGE_SIZE) ↦ pagetable entry, as read through the
  recursive mapping by `get_mapping` (for addresses outside the null region) -/
  pte : Nat → Option MappingPte
  /-- frame number (paddr / PAGE_SIZE) ↦ raw `PhysPageInfo` word -/
  pageinfo : Nat → Nat
  /-- frame number ↦ abstract frame contents -/
  physContent : Nat → Nat
  freelist_head : Option Nat
  bump : BumpAllocator
  max_allocated : Nat
  /-- the `PHYSALLOC_START` linker symbol -/
  physalloc_start : Nat
  /-- `zero_page_paddr()` -/
  zero_page : Nat

/-- `MemoryMapper::get_mapping`: `none` if the pagetable or the entry is
absent; null-region pages are never mapped. -/
def MemoryMapper.get_mapping (s : KState) (vaddr : Nat) : Option MappingPte :=
  if vaddr < 1 <<< 22 then none else s.pte (vaddr / PAGE_SIZE)

def MemoryMapper.mapping_to_flags (m : MappingPte) : MappingFlags :=
  ⟨m.is_writable, m.userspace_accessible⟩

/-- `PhysAllocator::alloc`: pop the freelist head if non-empty, else take the
bump allocator's next address (fuel is only consumed by the bump walk). -/
def PhysAllocator.alloc (fuel : Nat) (s : KState) : Option (Option Nat × KState) :=
  match s.freelist_head with
  | some paddr =>
    let info := s.pageinfo (paddr / PAGE_SIZE)
    some (some paddr,
      { s with freelist_head := PhysPageInfo.free_link info,
               pageinfo := Function.update s.pageinfo (paddr / PAGE_SIZE) 0 })
  | none =>
    match BumpAllocator.alloc fuel s.bump with
    | none => none
    | some (none, b2) => some (none, { s with bump := b2 })
    | some (some r, b2) => some (some r, { s with bump := b2, max_allocated := r })

/-- `PhysAllocator::free`: panics (`none`) below `PHYSALLOC_START` and on a
null frame; pushes the frame when the refcount is 0, else decrements. -/
def PhysAllocator.free (s : KState) (paddr : Nat) : Option KState :=
  if paddr < s.physalloc_start then none   -- assert!(paddr >= PHYSALLOC_START)
  else
    let p := page_align_down paddr
    if p = 0 then none                     -- get_page_info: assert!(paddr != 0)
    else
      let info := s.pageinfo (p / PAGE_SIZE)
      if AllocatedPageInfo.refcount info = 0 then
        some { s with
          pageinfo := Function.update s.pageinfo (p / PAGE_SIZE)
            (PhysPageInfo.encode_free s.freelist_head),
          freelist_head := some p }
      else
        some { s with
          pageinfo := Function.update s.pageinfo (p / PAGE_SIZE)
            (AllocatedPageInfo.set_refcount info (AllocatedPageInfo.refcount info - 1)) }

/-- The freelist read off the state by following the `PhysPageInfo` links,
truncated by fuel (theorems hypothesize that the chain ends within the
fuel). -/
def freelistChain (s : KState) : Nat → Option Nat → List Nat
  | _, none => []
  | 0, some _ => []
  | fuel + 1, some p =>
    p :: freelistChain s fuel (PhysPageInfo.free_link (s.pageinfo (p / PAGE_SIZE)))

/-! ## Memory mapper operations (src/x86/mmu/mmap.rs) -/

/-- `MemoryMapper::map_no_alloc`: write the PTE for `vaddr`. -/
def MemoryMapper.map_no_alloc (s : KState) (paddr vaddr : Nat)
    (flags : MappingFlags) : KState :=
  let entry := some (MappingPte.mk flags.writable flags.user_accessible paddr)
  { s with pte := Function.update s.pte (vaddr / PAGE_SIZE) entry }

/-- `MemoryMapper::map`.  `map_ensure_pagetable`'s pagetable materialization
is below this model's abstraction (the `pte` store is total); its
null-region assert is kept. -/
def MemoryMapper.map (s : KState) (paddr vaddr : Nat) (flags : MappingFlags) :
    Option KState :=
  if vaddr / 2 ^ 22 = 0 then none   -- assert_ne!(pde_index, 0)
  else some (MemoryMapper.map_no_alloc s paddr vaddr flags)

/-- `MemoryMapper::move_page`: copy the page visible at `vaddr` aside, remap
`vaddr` to `dest_paddr`, copy the contents back (i.e. into the new frame). -/
def MemoryMapper.move_page (s : KState) (vaddr dest_paddr : Nat)
    (flags : MappingFlags) : KState :=
  let content :=
    match MemoryMapper.get_mapping s vaddr with
    | some m => s.physContent (m.physaddr / PAGE_SIZE)
    | none => 0   -- the source would fault; unreachable in all uses
  let s1 := MemoryMapper.map_no_alloc s dest_paddr vaddr flags
  { s1 with physContent := Function.update s1.physContent (dest_paddr / PAGE_SIZE) content }

/-- `MemoryMapper::is_cow` (`none` = panic: unmapped address, or the
`get_page_info` null assert). -/
def MemoryMapper.is_cow (s : KState) (vaddr : Nat) : Option Bool :=
  match MemoryMapper.get_mapping s (page_align_down vaddr) with
  | none => none   -- expect "vaddr is unmapped"
  | some mapping =>
    if mapping.physaddr = 0 then none   -- get_page_info: assert!(paddr != 0)
    else
      some (mapping.physaddr = s.zero_page ||
        AllocatedPageInfo.copy_on_write (s.pageinfo (mapping.physaddr / PAGE_SIZE)))

/-- The page-stepping loop of `MemoryMapper::validate_range`. -/
def MemoryMapper.validate_loop (s : KState) (flags : MappingFlags)
    (vaddr size : Nat) : Option Bool :=
  if size = 0 then some true
  else
    match MemoryMapper.get_mapping s vaddr with
    | none => some false   -- page is not mapped
    | some mapping =>
      if flags.user_accessible && !mapping.userspace_accessible then
        some false         -- insufficient permissions
      else if flags.writable && !mapping.userspace_accessible then
        -- the short-circuit `!(mapping.userspace_accessible() || self.is_cow(..))`
        match MemoryMapper.is_cow s vaddr with
        | none => none
        | some c =>
          if c then MemoryMapper.validate_loop s flags (vaddr + PAGE_SIZE) (size - PAGE_SIZE)
          else some false  -- attempt to write to read-only page
      else MemoryMapper.validate_loop s flags (vaddr + PAGE_SIZE) (size - PAGE_SIZE)
  termination_by size
  decreasing_by
    all_goals
      simp only [PAGE_SIZE, PAGE_SHIFT, Nat.shiftLeft_eq]
      omega

/-- `MemoryMapper::validate_range` (`none` = panic inside `is_cow`, possible
only for a present PTE with physical address 0). -/
def MemoryMapper.validate_range (s : KState) (vaddr size : Nat)
    (flags : MappingFlags) : Option Bool :=
  if size ≠ 0 ∧ wrapping_neg32 size < vaddr then some false   -- overflow
  else MemoryMapper.validate_loop s flags vaddr size

/-- `MemoryMapper::cow_if_needed`. -/
def MemoryMapper.cow_if_needed (fuel : Nat) (s : KState) (vaddr : Nat) :
    Option (Bool × KState) :=
  let v := page_align_down vaddr
  match MemoryMapper.get_mapping s v with
  | none => none   -- expect "vaddr is unmapped"
  | some mapping =>
    let src_paddr := mapping.physaddr
    if src_paddr = 0 then none   -- get_page_info: assert!(paddr != 0)
    else
      let info := s.pageinfo (src_paddr / PAGE_SIZE)
      if src_paddr = s.zero_page ∨
          (AllocatedPageInfo.copy_on_write info ∧ 0 < AllocatedPageInfo.refcount info) then
        match PhysAllocator.alloc fuel s with
        | none => none
        | some (none, _) => none   -- expect "not enough memory for copy-on-write"
        | some (some dest_paddr, s1) =>
          let s2 := MemoryMapper.move_page s1 v dest_paddr
            { MemoryMapper.mapping_to_flags mapping with writable := true }
          if src_paddr = s.zero_page then some (true, s2)
          else
            match PhysAllocator.free s2 src_paddr with
            | none => none
            | some s3 => some (true, s3)
      else if AllocatedPageInfo.copy_on_write info ∧ AllocatedPageInfo.refcount info = 0 then
        -- take over in place: *get_page_info_mut(src) = Default::default()
        let s1 := { s with pageinfo := Function.update s.pageinfo (src_paddr / PAGE_SIZE) 0 }
        match MemoryMapper.map s1 src_paddr v
            { MemoryMapper.mapping_to_flags mapping with writable := true } with
        | none => none
        | some s2 => some (true, s2)
      else some (false, s)

/-! ## Syscall dispatch (src/syscall_kernel.rs) -/

/-- `syscall_kernel::validate_range`: note the flags — only `writable` is ever
set; `user_accessible` is left false. -/
def SyscallKernel.validate_range (s : KState) (start len : Nat)
    (is_write : Bool) : Option Bool :=
  MemoryMapper.validate_range s start len ⟨is_write, false⟩

/-- `syscall_kernel::validate_ptr`: alignment, then range validation
(short-circuit `&&`). -/
def SyscallKernel.validate_ptr (s : KState) (addr size align : Nat)
    (is_write : Bool) : Option Bool :=
  if addr % align = 0 then SyscallKernel.validate_range s addr size is_write
  else some false

/-- The saved registers of the syscall trap frame that dispatch reads
(`al` = id, `ebx` = arg pointer, `ecx` = result pointer). -/
structure InterruptFrame where
  eax : Nat
  ebx : Nat
  ecx : Nat
  deriving Repr, DecidableEq

inductive DispatchOutcome where
  | noMatch
  | panicked
  | invoked (arg_ptr result_ptr : Nat)
  deriving Repr, DecidableEq

/-- `match_syscall_args`, generic over the argument type's `Arg::validate`
(`none` = that validation itself panicked) and the result type's size and
alignment.  Any failed assert is `panicked`; `invoked` means the handler runs
with the two raw pointers. -/
def match_syscall_args (s : KState) (frame : InterruptFrame) (id : Nat)
    (argValidate : KState → Nat → Option Bool) (resultSize resultAlign : Nat) :
    DispatchOutcome :=
  if frame.eax % 2 ^ 8 = id % 2 ^ 8 then   -- frame.eax as u8 == id as u8
    match argValidate s frame.ebx with
    | some true =>
      match SyscallKernel.validate_ptr s frame.ecx resultSize resultAlign true with
      | some true => .invoked frame.ebx frame.ecx
      | _ => .panicked   -- assert!("invalid syscall result buffer")
    | _ => .panicked     -- assert!("invalid syscall arg")
  else .noMatch

/-- `impl Arg for u32` (also `()`, `u8`, `usize`): every value is valid —
nothing about the pointer itself is checked. -/
def Arg.validateU32 (_ : KState) (_ : Nat) : Option Bool := some true

/-- `impl Arg for ()`. -/
def Arg.validateUnit (_ : KState) (_ : Nat) : Option Bool := some true

/-- `SyscallId::Close as u8`. -/
def SyscallId.Close : Nat := 4

/-! ## Scheduler (src/process/scheduler.rs) -/

structure Env where
  trap_frame : InterruptFrame
  cr3 : Nat
  deriving Repr, DecidableEq

structure Process where
  env : Env
  next : Option Nat
  prev : Option Nat
  /-- fd ↦ identity of the shared `Rc<RefCell<dyn File>>` handle; cloning the
  table shares the handles -/
  fdtable : Nat → Option Nat
  /-- the attached `Block` record, opaque here (`fork` only tests presence) -/
  block : Option Nat
  next_fd : Nat

structure Scheduler where
  processes : Nat → Option Process
  first : Option Nat
  next : Option Nat
  current_process : Nat
  next_pid : Nat

/-- `Scheduler::add_process` (`none` = the `unwrap` on a dangling `first`). -/
def Scheduler.add_process (s : Scheduler) (env : Env) : Option (Nat × Scheduler) :=
  let new_pid := s.next_pid
  let procs1 := Function.update s.processes new_pid
    (some ⟨env, s.first, none, fun _ => none, none, 0⟩)
  match s.first with
  | none =>
    some (new_pid, { s with next_pid := s.next_pid + 1, processes := procs1,
                            first := some new_pid })
  | some p =>
    match procs1 p with
    | none => none
    | some proc =>
      some (new_pid,
        { s with next_pid := s.next_pid + 1,
                 processes := Function.update procs1 p (some { proc with prev := some new_pid }),
                 first := some new_pid })

/-- `Scheduler::fork`.  `mapper.fork(&mut mmu.allocator)` builds the child
address space; its returned cr3 enters the model as `mapper_fork_cr3`.  The
parent keeps the *new* cr3, the child gets the old one plus a clone of the
trap frame and of the fd table.  `none` = a panic (missing current process,
or the "cannot fork a blocked process" assert). -/
def Scheduler.fork (s : Scheduler) (trap_frame : InterruptFrame)
    (mapper_fork_cr3 : Nat) : Option (Nat × Scheduler) :=
  match s.processes s.current_process with
  | none => none
  | some cur =>
    let old_cr3 := cur.env.cr3
    let cur1 := { cur with env := { cur.env with cr3 := mapper_fork_cr3 } }
    let new_fdtable := cur1.fdtable
    if cur1.block.isSome then none
    else
      let s1 := { s with processes := Function.update s.processes s.current_process (some cur1) }
      match Scheduler.add_process s1 { trap_frame := trap_frame, cr3 := old_cr3 } with
      | none => none
      | some (new_pid, s2) =>
        match s2.processes new_pid with
        | none => none
        | some child =>
          let procs3 := Function.update s2.processes new_pid (some { child with fdtable := new_fdtable })
          some (new_pid, { s2 with processes := procs3 })

/-! ## Spec-side predicates

These two predicates state, in the spec's own words, what the spec claims the
code checks; they are compared against the embedded source functions. -/

/-- What the spec asserts `validate_range` decides: the range does not
overflow the 32-bit address space and every page of `[vaddr, vaddr+len)` is
mapped, user-accessible when requested, and writable-or-COW when a write is
requested. -/
def validate_range_spec (s : KState) (vaddr len : Nat) (flags : MappingFlags) : Prop :=
  vaddr + len ≤ U32_SIZE ∧
  ∀ a, vaddr ≤ a → a < vaddr + len →
    ∃ m, MemoryMapper.get_mapping s a = some m ∧
      (flags.user_accessible = true → m.userspace_accessible = true) ∧
      (flags.writable = true → m.is_writable = true ∨ MemoryMapper.is_cow s a = some true)

/-- What the spec asserts the dispatcher verifies of a user pointer before
invoking a handler: proper alignment for the type and, for every byte of the
pointee, a page-mapped, user-accessible page (also writable-or-COW for the
result pointer, `wr = true`). -/
def ptr_verified_spec (s : KState) (p size align : Nat) (wr : Bool) : Prop :=
  p % align = 0 ∧
  ∀ a, p ≤ a → a < p + size →
    ∃ m, MemoryMapper.get_mapping s a = some m ∧
      m.userspace_accessible = true ∧
      (wr = true → m.is_writable = true ∨ MemoryMapper.is_cow s a = some true)

/-! ## Concrete states used by the counterexamples and witnesses -/

/-- One user page at 0x400000, user-accessible but read-only, backed by a
frame (0x5000) that is neither COW nor the zero page. -/
def c1state : KState :=
  { pte := fun i => if i = 1024 then some ⟨false, true, 0x5000⟩ else none,
    pageinfo := fun _ => 0,
    physContent := fun _ => 0,
    freelist_head := none,
    bump := ⟨none, 0, []⟩,
    max_allocated := 0,
    physalloc_start := 0x2000,
    zero_page := 0x3000 }

/-- A state with no mappings at all. -/
def c2state : KState :=
  { pte := fun _ => none,
    pageinfo := fun _ => 0,
    physContent := fun _ => 0,
    freelist_head := none,
    bump := ⟨none, 0, []⟩,
    max_allocated := 0,
    physalloc_start := 0x2000,
    zero_page := 0x3000 }

/-- A `close` syscall whose argument pointer `ebx` is unmapped and unaligned. -/
def c2frame : InterruptFrame := ⟨4, 0x123, 0x400000⟩

/-- 0x400000 is backed by the zero page (0x3000), whose `PageInfo` is marked
COW with refcount 1 (as `fork` leaves it); the freelist holds frame 0x8000. -/
def c3state : KState :=
  { pte := fun i => if i = 1024 then some ⟨false, true, 0x3000⟩ else none,
    pageinfo := fun i => if i = 3 then 2 ^ 31 + 1 else 0,
    physContent := fun _ => 0,
    freelist_head := some 0x8000,
    bump := ⟨none, 0, []⟩,
    max_allocated := 0,
    physalloc_start := 0x2000,
    zero_page := 0x3000 }

/-- 0x400000 is backed by an ordinary frame 0x5000, COW with refcount 2 and
contents 77; the freelist holds frame 0x8000. -/
def c3wstate : KState :=
  { pte := fun i => if i = 1024 then some ⟨false, true, 0x5000⟩ else none,
    pageinfo := fun i => if i = 5 then 2 ^ 31 + 2 else 0,
    physContent := fun i => if i = 5 then 77 else 0,
    freelist_head := some 0x8000,
    bump := ⟨none, 0, []⟩,
    max_allocated := 0,
    physalloc_start := 0x2000,
    zero_page := 0x3000 }

/-- The state of `c3wstate` right after its freelist pop of frame 0x8000. -/
def c3wstate1 : KState :=
  { c3wstate with
    freelist_head := PhysPageInfo.free_link (c3wstate.pageinfo (0x8000 / PAGE_SIZE)),
    pageinfo := Function.update c3wstate.pageinfo (0x8000 / PAGE_SIZE) 0 }

/-- A scheduler holding one runnable process (pid 1) with one open fd. -/
def c4proc : Process :=
  { env := ⟨⟨0, 0, 0⟩, 0x77000⟩,
    next := none,
    prev := none,
    fdtable := fun f => if f = 0 then some 9 else none,
    block := none,
    next_fd := 1 }

def c4sched : Scheduler :=
  { processes := fun p => if p = 1 then some c4proc else none,
    first := some 1,
    next := some 1,
    current_process := 1,
    next_pid := 2 }

/-- An empty pipe buffer whose writer is still open. -/
def c5state : PipeState := ⟨[], 5, true, true⟩

/-- A pipe buffer holding two bytes, both halves open. -/
def c5wstate : PipeState := ⟨[3, 4], 2, true, true⟩

/-- A pipe buffer holding one byte whose reader is closed. -/
def c6state : PipeState := ⟨[9], 1, false, true⟩

/-- The freelist holds exactly frame 0x5000. -/
def c8state : KState :=
  { pte := fun _ => none,
    pageinfo := fun _ => 0,
    physContent := fun _ => 0,
    freelist_head := some 0x5000,
    bump := ⟨none, 0, []⟩,
    max_allocated := 0,
    physalloc_start := 0x2000,
    zero_page := 0x3000 }

/-- The freelist holds exactly frame 0x9000; frame 0x7000 is allocated with
refcount 0. -/
def c9state : KState :=
  { pte := fun _ => none,
    pageinfo := fun _ => 0,
    physContent := fun _ => 0,
    freelist_head := some 0x9000,
    bump := ⟨none, 0, []⟩,
    max_allocated := 0,
    physalloc_start := 0x2000,
    zero_page := 0x3000 }

/-- A console ring with `rpos = wpos = 5` (empty, far from full). -/
def c10state : ConsoleBuffer := ⟨fun _ => 0, 5, 0, 5⟩

/-! # Theorems -/

/-! ## Pipes: C5, C6, C7 -/

/-- Helper: once the reader is closed it stays closed, and any non-empty
sequence of writes leaves the buffer empty. -/
theorem PipeWrite.writeAll_reader_closed (bufs : List (List Nat)) :
    ∀ s : PipeState, s.readerOpen = false →
      (PipeWrite.writeAll s bufs).readerOpen = false ∧
      (PipeWrite.writeAll s bufs).data = (if bufs = [] then s.data else []) := by
  induction bufs with
  | nil =>
    intro s h
    simp [PipeWrite.writeAll, h]
  | cons b bs ih =>
    intro s h
    have hw : (PipeWrite.write s b).2.readerOpen = false ∧
        (PipeWrite.write s b).2.data = [] := by
      unfold PipeWrite.write
      rw [if_pos h]
      exact ⟨h, rfl⟩
    have hstep : PipeWrite.writeAll s (b :: bs) = PipeWrite.writeAll (PipeWrite.write s b).2 bs := by
      simp [PipeWrite.writeAll]
    rcases ih (PipeWrite.write s b).2 hw.1 with ⟨h1, h2⟩
    refine ⟨by rw [hstep]; exact h1, ?_⟩
    rw [hstep, h2, hw.2]
    simp

/-- **C5 (counterexample).** `PipeRead::read` on an empty buffer whose writer
is still open also returns 0, so "returns 0 iff the buffer is empty and the
write half is closed" fails in the only-if direction. -/
theorem pipe_read_eof_iff_cex :
    (PipeRead.read c5state 1).1.length = 0 ∧
    ¬(c5state.data = [] ∧ c5state.writerOpen = false) := by
  constructor
  · rfl
  · decide

/-- **C5 (amended).** `PipeRead::read` returns 0 (EOF) and shrinks the buffer
when the buffer is empty and the write half is closed; otherwise it copies
`min(buf.len(), buffered)` bytes (which may also be 0) and returns that
count, leaving the capacity alone. -/
theorem pipe_read_characterization (s : PipeState) (n : Nat) :
    (s.data = [] ∧ s.writerOpen = false →
      PipeRead.read s n = ([], { s with cap := 0 })) ∧
    (¬(s.data = [] ∧ s.writerOpen = false) →
      PipeRead.read s n =
        (s.data.take (min n s.data.length),
         { s with data := s.data.drop (min n s.data.length) })) := by
  constructor
  · intro h
    unfold PipeRead.read
    rw [if_pos h]
  · intro h
    unfold PipeRead.read
    rw [if_neg h]

/-- **C5 (witness).** The characterization applied to a two-byte buffer with
both halves open. -/
theorem pipe_read_characterization_witness :
    PipeRead.read c5wstate 1 =
      (c5wstate.data.take (min 1 c5wstate.data.length),
       { c5wstate with data := c5wstate.data.drop (min 1 c5wstate.data.length) }) :=
  (pipe_read_characterization c5wstate 1).2 (by decide)

/-- **C6.** A write on a pipe whose reader is closed clears the buffer,
stores nothing and reports the full length; with the reader open the bytes
are appended instead; and after the reader is gone no sequence of writes ever
leaves a byte stored. -/
theorem pipe_write_reader_closed (s : PipeState) (buf : List Nat) :
    (s.readerOpen = false →
      PipeWrite.write s buf = (buf.length, { s with data := [], cap := 0 })) ∧
    (s.readerOpen = true →
      (PipeWrite.write s buf).1 = min buf.length (PIPE_BUF_LEN - s.data.length) ∧
      (PipeWrite.write s buf).2.data =
        s.data ++ buf.take (min buf.length (PIPE_BUF_LEN - s.data.length))) ∧
    (s.readerOpen = false → ∀ bufs, bufs ≠ [] →
      (PipeWrite.writeAll s bufs).data = [] ∧
      (PipeWrite.writeAll s bufs).readerOpen = false) := by
  refine ⟨?_, ?_, ?_⟩
  · intro h
    unfold PipeWrite.write
    rw [if_pos h]
  · intro h
    have hne : ¬(s.readerOpen = false) := by simp [h]
    unfold PipeWrite.write
    rw [if_neg hne]
    exact ⟨rfl, rfl⟩
  · intro h bufs hbufs
    rcases PipeWrite.writeAll_reader_closed bufs s h with ⟨h1, h2⟩
    rw [if_neg hbufs] at h2
    exact ⟨h2, h1⟩

/-- **C6 (witness).** Applied to a one-byte buffer with a closed reader and
the write sequence `[[5], [6]]`. -/
theorem pipe_write_reader_closed_witness :
    PipeWrite.write c6state [5] = (1, { c6state with data := [], cap := 0 }) ∧
    (PipeWrite.writeAll c6state [[5], [6]]).data = [] :=
  ⟨(pipe_write_reader_closed c6state [5]).1 (by decide),
   ((pipe_write_reader_closed c6state [5]).2.2 (by decide) [[5], [6]] (by decide)).1⟩

/-- **C7.** Writing `N ≤ PIPE_BUF_LEN` bytes into a fresh pipe reports `N`
written, and reading them back through an `N`-byte buffer returns exactly the
written bytes, in order. -/
theorem pipe_roundtrip (bytes : List Nat) (h : bytes.length ≤ PIPE_BUF_LEN) :
    (PipeWrite.write pipe bytes).1 = bytes.length ∧
    (PipeRead.read (PipeWrite.write pipe bytes).2 bytes.length).1 = bytes := by
  have hcount : min bytes.length (PIPE_BUF_LEN - (pipe).data.length) = bytes.length := by
    simp [pipe]
    omega
  have hw : PipeWrite.write pipe bytes = (bytes.length, ⟨bytes, bytes.length, true, true⟩) := by
    unfold PipeWrite.write
    rw [if_neg (by simp [pipe])]
    simp [pipe, hcount]
    exact h
  refine ⟨by rw [hw], ?_⟩
  rw [hw]
  unfold PipeRead.read
  rw [if_neg (by simp)]
  simp

/-- **C7 (witness).** Round trip of the three bytes `[1, 2, 3]`. -/
theorem pipe_roundtrip_witness :
    (PipeWrite.write pipe [1, 2, 3]).1 = 3 ∧
    (PipeRead.read (PipeWrite.write pipe [1, 2, 3]).2 3).1 = [1, 2, 3] := by
  have h := pipe_roundtrip [1, 2, 3] (by decide)
  simpa using h

/-! ## Console ring: C10 -/

/-- **C10.** `recv_input` drops the byte and leaves the ring untouched
exactly when `wpos + 1 ≡ rpos (mod 4096)`; otherwise it stores the byte at
`wpos` and advances `wpos` by one modulo 4096; `rpos` is never moved and
`wpos` never lands on `rpos`, so the ring holds at most 4095 bytes. -/
theorem recv_input_ring (s : ConsoleBuffer) (c : Nat)
    (hw : s.wpos < CONSOLE_BUFSIZE) (hr : s.rpos < CONSOLE_BUFSIZE) :
    (ConsoleBuffer.recv_input s c = s ↔ (s.wpos + 1) % CONSOLE_BUFSIZE = s.rpos) ∧
    ((s.wpos + 1) % CONSOLE_BUFSIZE ≠ s.rpos →
      ConsoleBuffer.recv_input s c =
        { s with buf := Function.update s.buf s.wpos c,
                 wpos := (s.wpos + 1) % CONSOLE_BUFSIZE }) ∧
    (ConsoleBuffer.recv_input s c).rpos = s.rpos ∧
    (ConsoleBuffer.recv_input s c).wpos ≠ s.rpos := by
  have hb : CONSOLE_BUFSIZE = 4096 := rfl
  rw [hb] at hw hr ⊢
  have hfull_iff : (s.wpos = if s.rpos = 0 then CONSOLE_BUFSIZE - 1 else s.rpos - 1)
      ↔ (s.wpos + 1) % 4096 = s.rpos := by
    rw [hb]
    by_cases hz : s.rpos = 0
    · rw [if_pos hz, hz]
      omega
    · rw [if_neg hz]
      omega
  by_cases hfull : s.wpos = if s.rpos = 0 then CONSOLE_BUFSIZE - 1 else s.rpos - 1
  · have heq : ConsoleBuffer.recv_input s c = s := by
      unfold ConsoleBuffer.recv_input
      rw [if_pos hfull]
    have hmod := hfull_iff.mp hfull
    refine ⟨by simp [heq, hmod], fun hne => absurd hmod hne, by rw [heq], ?_⟩
    rw [heq]
    omega
  · have heq : ConsoleBuffer.recv_input s c =
        { s with buf := Function.update s.buf s.wpos c,
                 wpos := (s.wpos + 1) % CONSOLE_BUFSIZE } := by
      unfold ConsoleBuffer.recv_input
      rw [if_neg hfull]
    have hmod := (not_iff_not.mpr hfull_iff).mp hfull
    refine ⟨?_, fun _ => heq, ?_, ?_⟩
    · constructor
      · intro h
        exfalso
        have hww : (ConsoleBuffer.recv_input s c).wpos = s.wpos := congrArg ConsoleBuffer.wpos h
        rw [heq] at hww
        simp only [hb] at hww
        omega
      · intro h
        exact absurd h hmod
    · rw [heq]
    · rw [heq]
      simp only [hb]
      omega

/-- **C10 (witness).** The ring bounds discharged on a concrete empty ring. -/
theorem recv_input_ring_witness :
    (ConsoleBuffer.recv_input c10state 7 = c10state ↔
      (c10state.wpos + 1) % CONSOLE_BUFSIZE = c10state.rpos) ∧
    ((c10state.wpos + 1) % CONSOLE_BUFSIZE ≠ c10state.rpos →
      ConsoleBuffer.recv_input c10state 7 =
        { c10state with buf := Function.update c10state.buf c10state.wpos 7,
                        wpos := (c10state.wpos + 1) % CONSOLE_BUFSIZE }) ∧
    (ConsoleBuffer.recv_input c10state 7).rpos = c10state.rpos ∧
    (ConsoleBuffer.recv_input c10state 7).wpos ≠ c10state.rpos :=
  recv_input_ring c10state 7 (by decide) (by decide)

/-! ## Scheduler: C4 -/

/-- **C4.** `Scheduler::fork` of an unblocked parent hands the freshly built
address space (`mapper.fork`'s cr3) to the parent, gives the child the
parent's old cr3 together with a clone of the parent's trap frame and fd
table (shared handles), and returns the child's pid (`next_pid`). -/
theorem scheduler_fork_spec (s : Scheduler) (tf : InterruptFrame) (new_cr3 : Nat)
    (cur : Process)
    (hcur : s.processes s.current_process = some cur)
    (hblock : cur.block = none)
    (hfresh : s.processes s.next_pid = none)
    (hfirst : s.first = none ∨ ∃ p q, s.first = some p ∧ s.processes p = some q) :
    ∃ s2, Scheduler.fork s tf new_cr3 = some (s.next_pid, s2) ∧
      (s2.processes s.current_process).map (fun pr => pr.env.cr3) = some new_cr3 ∧
      (s2.processes s.current_process).map (fun pr => pr.env.trap_frame)
        = some cur.env.trap_frame ∧
      (s2.processes s.current_process).map (fun pr => pr.fdtable) = some cur.fdtable ∧
      (s2.processes s.next_pid).map (fun pr => pr.env.cr3) = some cur.env.cr3 ∧
      (s2.processes s.next_pid).map (fun pr => pr.env.trap_frame) = some tf ∧
      (s2.processes s.next_pid).map (fun pr => pr.fdtable) = some cur.fdtable ∧
      (s2.processes s.next_pid).map (fun pr => pr.block) = some none := by
  have hne : s.next_pid ≠ s.current_process := by
    intro h
    rw [← h, hfresh] at hcur
    exact Option.noConfusion hcur
  unfold Scheduler.fork Scheduler.add_process
  rw [hcur]
  simp only [hblock, Option.isSome_none, Bool.false_eq_true, if_false]
  rcases hfirst with hf | ⟨p, q, hf, hq⟩
  · rw [hf]
    dsimp only
    simp only [Function.update_same, Function.update_noteq hne]
    refine ⟨_, rfl, ?_, ?_, ?_, ?_, ?_, ?_, ?_⟩ <;>
      simp [Function.update_same, Function.update_noteq (Ne.symm hne)]
  · have hpne : p ≠ s.next_pid := by
      intro h
      rw [h, hfresh] at hq
      exact Option.noConfusion hq
    rw [hf]
    dsimp only
    rw [Function.update_noteq hpne]
    by_cases hpc : p = s.current_process
    · subst hpc
      rw [Function.update_same]
      dsimp only
      simp only [Function.update_same, Function.update_noteq hne,
        Function.update_noteq (Ne.symm hpne)]
      refine ⟨_, rfl, ?_, ?_, ?_, ?_, ?_, ?_, ?_⟩ <;>
        simp [Function.update_same, Function.update_noteq (Ne.symm hne)]
    · rw [Function.update_noteq (fun h => hpc h), hq]
      dsimp only
      simp only [Function.update_same, Function.update_noteq hne,
        Function.update_noteq (Ne.symm hpne)]
      refine ⟨_, rfl, ?_, ?_, ?_, ?_, ?_, ?_, ?_⟩ <;>
        simp [Function.update_same, Function.update_noteq (Ne.symm hne),
          Function.update_noteq (fun h => hpc h.symm)]

/-- **C4 (witness).** Fork of a concrete one-process scheduler. -/
theorem scheduler_fork_spec_witness :
    ∃ s2, Scheduler.fork c4sched ⟨6, 0, 0⟩ 0x88000 = some (c4sched.next_pid, s2) ∧
      (s2.processes c4sched.current_process).map (fun pr => pr.env.cr3) = some 0x88000 ∧
      (s2.processes c4sched.current_process).map (fun pr => pr.env.trap_frame)
        = some c4proc.env.trap_frame ∧
      (s2.processes c4sched.current_process).map (fun pr => pr.fdtable)
        = some c4proc.fdtable ∧
      (s2.processes c4sched.next_pid).map (fun pr => pr.env.cr3) = some c4proc.env.cr3 ∧
      (s2.processes c4sched.next_pid).map (fun pr => pr.env.trap_frame) = some ⟨6, 0, 0⟩ ∧
      (s2.processes c4sched.next_pid).map (fun pr => pr.fdtable) = some c4proc.fdtable ∧
      (s2.processes c4sched.next_pid).map (fun pr => pr.block) = some none :=
  scheduler_fork_spec c4sched ⟨6, 0, 0⟩ 0x88000 c4proc rfl rfl rfl
    (Or.inr ⟨1, c4proc, rfl, rfl⟩)

/-! ## Physical allocator: C8, C9 -/

theorem PAGE_SIZE_eq : PAGE_SIZE = 4096 := rfl

/-- Helper: `page_align_up` only produces page-aligned addresses. -/
theorem page_align_up_aligned {a r : Nat} (h : page_align_up a = some r) :
    r % PAGE_SIZE = 0 := by
  unfold page_align_up at h
  split at h
  · obtain rfl := Option.some.inj h
    unfold page_align_down
    rw [PAGE_SIZE_eq]
    omega
  · exact absurd h (by simp)

/-- Helper: the inner `for` pass of `find_next` keeps the address
page-aligned. -/
theorem forPass_aligned (rs : List MemoryRegion) :
    ∀ a i f u a2 i2 u2, BumpAllocator.forPass rs a i f u = .next a2 i2 u2 →
      a % PAGE_SIZE = 0 → a2 % PAGE_SIZE = 0 := by
  induction rs with
  | nil =>
    intro a i f u a2 i2 u2 h ha
    unfold BumpAllocator.forPass at h
    simp only [ForOut.next.injEq] at h
    obtain ⟨rfl, rfl, rfl⟩ := h
    exact ha
  | cons r rest ih =>
    intro a i f u a2 i2 u2 h ha
    unfold BumpAllocator.forPass at h
    by_cases h1 : (!r.should_ignore && r.is_after a PAGE_SIZE) = true
    · rw [if_pos h1] at h
      by_cases h2 : f = true
      · rw [if_pos h2] at h
        cases hpa : page_align_up r.startUsize with
        | none =>
          rw [hpa] at h
          exact absurd h (by simp)
        | some aa =>
          rw [hpa] at h
          dsimp only at h
          by_cases hu : r.is_usable = true
          · rw [if_pos hu] at h
            exact ih _ _ _ _ _ _ _ h (page_align_up_aligned hpa)
          · rw [if_neg hu] at h
            cases hc : (checked_add32 r.startUsize r.lengthUsize).bind page_align_up with
            | none =>
              rw [hc] at h
              exact absurd h (by simp)
            | some a3 =>
              rw [hc] at h
              dsimp only at h
              simp only [ForOut.next.injEq] at h
              obtain ⟨rfl, rfl, rfl⟩ := h
              obtain ⟨x, _, hx2⟩ := Option.bind_eq_some.mp hc
              exact page_align_up_aligned hx2
      · rw [if_neg h2] at h
        simp only [ForOut.next.injEq] at h
        obtain ⟨rfl, rfl, rfl⟩ := h
        exact ha
    · rw [if_neg h1] at h
      by_cases h2 : (r.should_ignore || r.is_before a) = true
      · rw [if_pos h2] at h
        exact ih _ _ _ _ _ _ _ h ha
      · rw [if_neg h2] at h
        by_cases hu : r.is_usable = true
        · rw [if_pos hu] at h
          exact ih _ _ _ _ _ _ _ h ha
        · rw [if_neg hu] at h
          cases hc : (checked_add32 r.startUsize r.lengthUsize).bind page_align_up with
          | none =>
            rw [hc] at h
            exact absurd h (by simp)
          | some a3 =>
            rw [hc] at h
            dsimp only at h
            simp only [ForOut.next.injEq] at h
            obtain ⟨rfl, rfl, rfl⟩ := h
            obtain ⟨x, _, hx2⟩ := Option.bind_eq_some.mp hc
            exact page_align_up_aligned hx2

/-- Helper: the `while` loop of `find_next` keeps the address page-aligned. -/
theorem findNextLoop_aligned (fuel : Nat) :
    ∀ map a i r i2, BumpAllocator.findNextLoop fuel map a i = some (some r, i2) →
      a % PAGE_SIZE = 0 → r % PAGE_SIZE = 0 := by
  induction fuel with
  | zero =>
    intro map a i r i2 h _
    exact absurd h (by simp [BumpAllocator.findNextLoop])
  | succ fuel ih =>
    intro map a i r i2 h ha
    unfold BumpAllocator.findNextLoop at h
    split at h
    · simp at h
    · cases hp : BumpAllocator.forPass (map.drop i) a i true false with
      | overflow i3 =>
        rw [hp] at h
        simp at h
      | next a3 i3 u3 =>
        rw [hp] at h
        cases u3 with
        | true =>
          simp only [Option.some.injEq, Prod.mk.injEq] at h
          obtain ⟨h1, _⟩ := h
          subst h1
          exact forPass_aligned _ _ _ _ _ _ _ _ hp ha
        | false =>
          exact ih map a3 i3 r i2 h (forPass_aligned _ _ _ _ _ _ _ _ hp ha)

/-- **C8.** `PhysAllocator::alloc` pops and returns the freelist head when one
exists (strict LIFO: a frame freed at refcount 0 is returned by the very next
`alloc`); with an empty freelist the result is exactly the bump walk's
next address — always page-aligned — and `None` once the walk is exhausted. -/
theorem palloc_alloc_spec (s : KState) (fuel : Nat) :
    (∀ p, s.freelist_head = some p →
      PhysAllocator.alloc fuel s =
        some (some p,
          { s with freelist_head := PhysPageInfo.free_link (s.pageinfo (p / PAGE_SIZE)),
                   pageinfo := Function.update s.pageinfo (p / PAGE_SIZE) 0 })) ∧
    (s.freelist_head = none →
      (PhysAllocator.alloc fuel s).map (fun r => r.1)
        = (BumpAllocator.alloc fuel s.bump).map (fun r => r.1) ∧
      (s.bump.next_addr = none → PhysAllocator.alloc fuel s = some (none, s))) ∧
    (∀ b addr r b2, BumpAllocator.find_next fuel b addr = some (some r, b2) →
      r % PAGE_SIZE = 0) ∧
    (∀ paddr, s.physalloc_start ≤ paddr → 0 < paddr → paddr % PAGE_SIZE = 0 →
      AllocatedPageInfo.refcount (s.pageinfo (paddr / PAGE_SIZE)) = 0 →
      ((PhysAllocator.free s paddr).bind (PhysAllocator.alloc fuel)).map (fun r => r.1)
        = some (some paddr)) := by
  refine ⟨?_, ?_, ?_, ?_⟩
  · intro p hp
    unfold PhysAllocator.alloc
    rw [hp]
  · intro h
    constructor
    · unfold PhysAllocator.alloc
      rw [h]
      cases hb : BumpAllocator.alloc fuel s.bump with
      | none => rfl
      | some rb =>
        obtain ⟨fst, snd⟩ := rb
        cases fst <;> rfl
    · intro hna
      obtain ⟨pte1, pi1, pc1, fh1, bu1, ma1, ps1, zp1⟩ := s
      obtain ⟨na1, fa1, mm1⟩ := bu1
      replace h : fh1 = none := h
      replace hna : na1 = none := hna
      subst h
      subst hna
      rfl
  · intro b addr r b2 hfn
    unfold BumpAllocator.find_next at hfn
    cases hpa : page_align_up addr with
    | none =>
      rw [hpa] at hfn
      simp at hfn
    | some a =>
      rw [hpa] at hfn
      dsimp only at hfn
      cases hloop : BumpAllocator.findNextLoop fuel b.memory_map a b.first_active_region_idx with
      | none =>
        rw [hloop] at hfn
        exact absurd hfn (by simp)
      | some pr =>
        obtain ⟨ro, i2⟩ := pr
        rw [hloop] at hfn
        dsimp only at hfn
        simp only [Option.some.injEq, Prod.mk.injEq] at hfn
        obtain ⟨hro, _⟩ := hfn
        rw [hro] at hloop
        exact findNextLoop_aligned fuel b.memory_map a b.first_active_region_idx r i2 hloop
          (page_align_up_aligned hpa)
  · intro paddr hge hpos hal hrc
    have hpd : page_align_down paddr = paddr := by
      unfold page_align_down
      omega
    have hfree : PhysAllocator.free s paddr =
        some { s with
          pageinfo := Function.update s.pageinfo (paddr / PAGE_SIZE)
            (PhysPageInfo.encode_free s.freelist_head),
          freelist_head := some paddr } := by
      unfold PhysAllocator.free
      rw [if_neg (Nat.not_lt.mpr hge)]
      rw [hpd, if_neg (by omega), if_pos hrc]
    rw [hfree]
    rfl

/-- **C8 (witness).** Popping a concrete one-element freelist, and the LIFO
round trip `free (refcount 0) ∘ alloc` on frame 0x6000. -/
theorem palloc_alloc_spec_witness :
    PhysAllocator.alloc 1 c8state =
      some (some 0x5000,
        { c8state with
            freelist_head := PhysPageInfo.free_link (c8state.pageinfo (0x5000 / PAGE_SIZE)),
            pageinfo := Function.update c8state.pageinfo (0x5000 / PAGE_SIZE) 0 }) ∧
    ((PhysAllocator.free c8state 0x6000).bind (PhysAllocator.alloc 1)).map (fun r => r.1)
      = some (some 0x6000) :=
  ⟨(palloc_alloc_spec c8state 1).1 0x5000 rfl,
   (palloc_alloc_spec c8state 1).2.2.2 0x6000 (by decide) (by decide) (by decide) (by decide)⟩

/-- Helper: a chain read through a state changed only at frame-number `j`
agrees with the original as long as the chain never visits `j`. -/
theorem freelistChain_congr (s s2 : KState) (j : Nat)
    (hagree : ∀ i, i ≠ j → s2.pageinfo i = s.pageinfo i) :
    ∀ n h, (∀ q ∈ freelistChain s n h, q / PAGE_SIZE ≠ j) →
      freelistChain s2 n h = freelistChain s n h := by
  intro n
  induction n with
  | zero =>
    intro h _
    cases h <;> rfl
  | succ n ih =>
    intro h hq
    cases h with
    | none => rfl
    | some p =>
      have hp : p / PAGE_SIZE ≠ j := by
        apply hq
        unfold freelistChain
        exact List.mem_cons_self _ _
      show p :: freelistChain s2 n (PhysPageInfo.free_link (s2.pageinfo (p / PAGE_SIZE)))
          = p :: freelistChain s n (PhysPageInfo.free_link (s.pageinfo (p / PAGE_SIZE)))
      rw [hagree _ hp]
      congr 1
      apply ih
      intro q hqmem
      apply hq
      unfold freelistChain
      exact List.mem_cons_of_mem _ hqmem

/-- Helper: a chain that has stabilized at fuel `n` stays stable. -/
theorem freelistChain_stable (s : KState) :
    ∀ n h, freelistChain s n h = freelistChain s (n + 1) h →
      freelistChain s (n + 1) h = freelistChain s (n + 2) h := by
  intro n
  induction n with
  | zero =>
    intro h hst
    cases h with
    | none => rfl
    | some p => exact absurd hst (by simp [freelistChain])
  | succ n ih =>
    intro h hst
    cases h with
    | none => rfl
    | some p =>
      have htail : freelistChain s n (PhysPageInfo.free_link (s.pageinfo (p / PAGE_SIZE)))
          = freelistChain s (n + 1) (PhysPageInfo.free_link (s.pageinfo (p / PAGE_SIZE))) := by
        have hst2 : p :: freelistChain s n (PhysPageInfo.free_link (s.pageinfo (p / PAGE_SIZE)))
            = p :: freelistChain s (n + 1) (PhysPageInfo.free_link (s.pageinfo (p / PAGE_SIZE))) := hst
        simp only [List.cons.injEq, true_and] at hst2
        exact hst2
      have := ih _ htail
      show p :: freelistChain s (n + 1) (PhysPageInfo.free_link (s.pageinfo (p / PAGE_SIZE)))
          = p :: freelistChain s (n + 2) (PhysPageInfo.free_link (s.pageinfo (p / PAGE_SIZE)))
      rw [this]

/-- Helper: decoding an encoded link is the identity on non-null links. -/
theorem free_link_encode (l : Option Nat) (h : l ≠ some 0) :
    PhysPageInfo.free_link (PhysPageInfo.encode_free l) = l := by
  cases l with
  | none => rfl
  | some q =>
    have hq : q ≠ 0 := fun h0 => h (by rw [h0])
    unfold PhysPageInfo.encode_free PhysPageInfo.free_link
    simp [hq]

/-- **C9.** `PhysAllocator::free` panics below `PHYSALLOC_START`; on an
allocated frame it decrements the refcount, and when the refcount was already
0 it pushes the frame: the frame's `PageInfo` word becomes the old freelist
head (the list link), the head becomes the frame, and — provided the frame
was not already on the (finite) freelist — the frame now appears on the
freelist exactly once. -/
theorem palloc_free_spec (s : KState) (paddr n : Nat) :
    (paddr < s.physalloc_start → PhysAllocator.free s paddr = none) ∧
    (s.physalloc_start ≤ paddr → page_align_down paddr ≠ 0 →
      0 < AllocatedPageInfo.refcount (s.pageinfo (page_align_down paddr / PAGE_SIZE)) →
      PhysAllocator.free s paddr =
        some { s with
          pageinfo := Function.update s.pageinfo (page_align_down paddr / PAGE_SIZE)
            (AllocatedPageInfo.set_refcount (s.pageinfo (page_align_down paddr / PAGE_SIZE))
              (AllocatedPageInfo.refcount (s.pageinfo (page_align_down paddr / PAGE_SIZE)) - 1)) }) ∧
    (s.physalloc_start ≤ paddr → page_align_down paddr ≠ 0 →
      AllocatedPageInfo.refcount (s.pageinfo (page_align_down paddr / PAGE_SIZE)) = 0 →
      s.freelist_head ≠ some 0 →
      freelistChain s n s.freelist_head = freelistChain s (n + 1) s.freelist_head →
      (∀ q ∈ freelistChain s (n + 1) s.freelist_head,
        q / PAGE_SIZE ≠ page_align_down paddr / PAGE_SIZE) →
      ∃ s2, PhysAllocator.free s paddr = some s2 ∧
        s2.freelist_head = some (page_align_down paddr) ∧
        s2.pageinfo (page_align_down paddr / PAGE_SIZE)
          = PhysPageInfo.encode_free s.freelist_head ∧
        freelistChain s2 (n + 2) s2.freelist_head
          = page_align_down paddr :: freelistChain s (n + 1) s.freelist_head ∧
        freelistChain s2 (n + 3) s2.freelist_head
          = freelistChain s2 (n + 2) s2.freelist_head ∧
        (freelistChain s2 (n + 2) s2.freelist_head).count (page_align_down paddr) = 1) := by
  refine ⟨?_, ?_, ?_⟩
  · intro hlt
    unfold PhysAllocator.free
    rw [if_pos hlt]
  · intro hge hnz hrc
    unfold PhysAllocator.free
    rw [if_neg (Nat.not_lt.mpr hge)]
    rw [if_neg hnz, if_neg (by omega)]
  · intro hge hnz hrc hhead hst hnotin
    have hfree : PhysAllocator.free s paddr =
        some { s with
          pageinfo := Function.update s.pageinfo (page_align_down paddr / PAGE_SIZE)
            (PhysPageInfo.encode_free s.freelist_head),
          freelist_head := some (page_align_down paddr) } := by
      unfold PhysAllocator.free
      rw [if_neg (Nat.not_lt.mpr hge)]
      rw [if_neg hnz, if_pos hrc]
    set p := page_align_down paddr with hp
    set j := p / PAGE_SIZE with hj
    set s2 : KState :=
      { s with
        pageinfo := Function.update s.pageinfo j (PhysPageInfo.encode_free s.freelist_head),
        freelist_head := some p } with hs2
    have hagree : ∀ i, i ≠ j → s2.pageinfo i = s.pageinfo i := by
      intro i hi
      exact Function.update_noteq hi _ _
    have hinfo : s2.pageinfo j = PhysPageInfo.encode_free s.freelist_head :=
      Function.update_same _ _ _
    have hstep : ∀ m, freelistChain s2 (m + 1) s2.freelist_head
        = p :: freelistChain s2 m s.freelist_head := by
      intro m
      show p :: freelistChain s2 m (PhysPageInfo.free_link (s2.pageinfo j))
        = p :: freelistChain s2 m s.freelist_head
      rw [hinfo, free_link_encode _ hhead]
    have hst2 := freelistChain_stable s n s.freelist_head hst
    have hc1 : freelistChain s2 (n + 1) s.freelist_head
        = freelistChain s (n + 1) s.freelist_head :=
      freelistChain_congr s s2 j hagree (n + 1) s.freelist_head hnotin
    have hc2 : freelistChain s2 (n + 2) s.freelist_head
        = freelistChain s (n + 2) s.freelist_head := by
      apply freelistChain_congr s s2 j hagree (n + 2) s.freelist_head
      rw [← hst2]
      exact hnotin
    have hchain : freelistChain s2 (n + 2) s2.freelist_head
        = p :: freelistChain s (n + 1) s.freelist_head := by
      rw [hstep (n + 1), hc1]
    have hchain3 : freelistChain s2 (n + 3) s2.freelist_head
        = freelistChain s2 (n + 2) s2.freelist_head := by
      rw [hstep (n + 2), hstep (n + 1), hc1, hc2, ← hst2]
    have hnotmem : p ∉ freelistChain s (n + 1) s.freelist_head := by
      intro hmem
      exact hnotin p hmem rfl
    refine ⟨s2, hfree, rfl, hinfo, hchain, hchain3, ?_⟩
    rw [hchain, List.count_cons_self, List.count_eq_zero.mpr hnotmem]

/-- **C9 (witness).** Frame 0x7000 (refcount 0) pushed onto a freelist
holding 0x9000, a below-start panic at 0x100, and a refcount decrement at a
frame with refcount 2. -/
theorem palloc_free_spec_witness :
    PhysAllocator.free c9state 0x100 = none ∧
    (∃ s2, PhysAllocator.free c9state 0x7000 = some s2 ∧
      s2.freelist_head = some (page_align_down 0x7000) ∧
      s2.pageinfo (page_align_down 0x7000 / PAGE_SIZE)
        = PhysPageInfo.encode_free c9state.freelist_head ∧
      freelistChain s2 3 s2.freelist_head
        = page_align_down 0x7000 :: freelistChain c9state 2 c9state.freelist_head ∧
      freelistChain s2 4 s2.freelist_head = freelistChain s2 3 s2.freelist_head ∧
      (freelistChain s2 3 s2.freelist_head).count (page_align_down 0x7000) = 1) :=
  ⟨(palloc_free_spec c9state 0x100 1).1 (by decide),
   (palloc_free_spec c9state 0x7000 1).2.2 (by decide) (by decide) (by decide)
     (by decide) (by decide) (by decide)⟩

/-! ## Mapper validation and COW: C1, C2, C3 -/

/-- **C1.** The claim states `validate_range` returns true iff no overflow
and every page of the range is mapped, user-accessible when requested and
*writable*-or-COW when a write is requested.  The code instead tests the PTE
**user** bit in the writable check (its own comment says "attempt to write to
read-only page"): on a mapped, user-accessible, read-only, non-COW page it
returns true where the claim (and the spec's intent) require false. -/
theorem validate_range_cbug :
    MemoryMapper.validate_range c1state 0x400000 4096 ⟨true, false⟩ = some true ∧
    ¬ validate_range_spec c1state 0x400000 4096 ⟨true, false⟩ := by
  have hmap : MemoryMapper.get_mapping c1state 0x400000 = some ⟨false, true, 0x5000⟩ := rfl
  have hic : MemoryMapper.is_cow c1state 0x400000 = some false := rfl
  constructor
  · unfold MemoryMapper.validate_range
    rw [if_neg (by unfold wrapping_neg32 U32_SIZE; norm_num)]
    unfold MemoryMapper.validate_loop
    rw [hmap]
    norm_num [PAGE_SIZE_eq]
    unfold MemoryMapper.validate_loop
    norm_num
  · intro hspec
    obtain ⟨-, hall⟩ := hspec
    obtain ⟨m, hm, -, hw⟩ := hall 0x400000 (le_refl _) (by norm_num)
    rw [hmap] at hm
    obtain rfl := Option.some.inj hm
    rcases hw rfl with hwr | hcow
    · exact Bool.noConfusion hwr
    · rw [hic] at hcow
      exact Bool.noConfusion (Option.some.inj hcow)

/-- **C2.** The claim states the dispatcher verifies both the argument
pointer and the result pointer (page-mapped, user-accessible, aligned) before
invoking a handler.  In the code `Arg::validate` for scalar types such as
`u32` checks nothing about the pointer, and `validate_ptr` never sets the
`user_accessible` flag: here a matching `close` syscall with an unmapped,
unaligned `ebx` still reaches its handler. -/
theorem dispatch_arg_unchecked_cbug :
    match_syscall_args c2state c2frame SyscallId.Close Arg.validateU32 0 1
      = DispatchOutcome.invoked 0x123 0x400000 ∧
    ¬ ptr_verified_spec c2state 0x123 4 4 false := by
  have hvp : SyscallKernel.validate_ptr c2state 0x400000 0 1 true = some true := by
    unfold SyscallKernel.validate_ptr SyscallKernel.validate_range MemoryMapper.validate_range
    rw [if_pos (by norm_num)]
    rw [if_neg (by norm_num)]
    unfold MemoryMapper.validate_loop
    norm_num
  constructor
  · unfold match_syscall_args
    rw [if_pos (by norm_num [c2frame, SyscallId.Close])]
    unfold Arg.validateU32
    simp only [c2frame]
    rw [hvp]
  · intro hspec
    have h1 := hspec.1
    norm_num at h1

theorem div_page_align_down (x : Nat) : page_align_down x / PAGE_SIZE = x / PAGE_SIZE := by
  unfold page_align_down
  rw [PAGE_SIZE_eq]
  omega

theorem refcount_lt (w : Nat) : AllocatedPageInfo.refcount w < 2 ^ 31 := by
  unfold AllocatedPageInfo.refcount
  exact Nat.mod_lt _ (by norm_num)

theorem refcount_set_refcount (w r : Nat) (h : r < 2 ^ 31) :
    AllocatedPageInfo.refcount (AllocatedPageInfo.set_refcount w r) = r := by
  unfold AllocatedPageInfo.refcount AllocatedPageInfo.set_refcount
  have h31 : (2 : Nat) ^ 31 = 2147483648 := by norm_num
  rw [h31] at h ⊢
  omega

theorem cow_set_refcount (w r : Nat) :
    AllocatedPageInfo.copy_on_write (AllocatedPageInfo.set_refcount w r)
      = AllocatedPageInfo.copy_on_write w := by
  unfold AllocatedPageInfo.copy_on_write AllocatedPageInfo.set_refcount
  have h31 : (2 : Nat) ^ 31 = 2147483648 := by norm_num
  rw [h31]
  simp only [decide_eq_decide]
  omega

theorem get_mapping_pte_congr (s s1 : KState) (h : s1.pte = s.pte) (x : Nat) :
    MemoryMapper.get_mapping s1 x = MemoryMapper.get_mapping s x := by
  unfold MemoryMapper.get_mapping
  rw [h]

theorem alloc_preserves (fuel : Nat) (s : KState) (r : Option Nat) (s1 : KState)
    (h : PhysAllocator.alloc fuel s = some (r, s1)) :
    s1.pte = s.pte ∧ s1.physContent = s.physContent ∧
    s1.zero_page = s.zero_page ∧ s1.physalloc_start = s.physalloc_start := by
  unfold PhysAllocator.alloc at h
  cases hf : s.freelist_head with
  | some p =>
    rw [hf] at h
    simp only [Option.some.injEq, Prod.mk.injEq] at h
    obtain ⟨-, h2⟩ := h
    rw [← h2]
    exact ⟨rfl, rfl, rfl, rfl⟩
  | none =>
    rw [hf] at h
    cases hb : BumpAllocator.alloc fuel s.bump with
    | none =>
      rw [hb] at h
      exact absurd h (by simp)
    | some pr =>
      obtain ⟨ro, b2⟩ := pr
      rw [hb] at h
      cases ro with
      | none =>
        simp only [Option.some.injEq, Prod.mk.injEq] at h
        obtain ⟨-, h2⟩ := h
        rw [← h2]
        exact ⟨rfl, rfl, rfl, rfl⟩
      | some rr =>
        simp only [Option.some.injEq, Prod.mk.injEq] at h
        obtain ⟨-, h2⟩ := h
        rw [← h2]
        exact ⟨rfl, rfl, rfl, rfl⟩

theorem move_page_eq (s : KState) (vaddr dest : Nat) (flags : MappingFlags)
    (m : MappingPte) (h : MemoryMapper.get_mapping s vaddr = some m) :
    MemoryMapper.move_page s vaddr dest flags =
      { s with
        pte := Function.update s.pte (vaddr / PAGE_SIZE)
          (some ⟨flags.writable, flags.user_accessible, dest⟩),
        physContent := Function.update s.physContent (dest / PAGE_SIZE)
          (s.physContent (m.physaddr / PAGE_SIZE)) } := by
  unfold MemoryMapper.move_page MemoryMapper.map_no_alloc
  rw [h]

theorem free_decrement (s : KState) (paddr : Nat)
    (hge : s.physalloc_start ≤ paddr) (hnz : page_align_down paddr ≠ 0)
    (hrc : 0 < AllocatedPageInfo.refcount (s.pageinfo (page_align_down paddr / PAGE_SIZE))) :
    PhysAllocator.free s paddr =
      some { s with
        pageinfo := Function.update s.pageinfo (page_align_down paddr / PAGE_SIZE)
          (AllocatedPageInfo.set_refcount
            (s.pageinfo (page_align_down paddr / PAGE_SIZE))
            (AllocatedPageInfo.refcount (s.pageinfo (page_align_down paddr / PAGE_SIZE)) - 1)) } := by
  unfold PhysAllocator.free
  rw [if_neg (Nat.not_lt.mpr hge), if_neg hnz, if_neg (by omega)]

/-- **C3 (counterexample).** The zero page's `PageInfo` is marked COW with
refcount 1 (the state `fork` leaves it in), so the claim's "COW with nonzero
refcount" branch applies and demands a decrement — but `cow_if_needed`
returns true with the refcount still 1 (the zero page is never released). -/
theorem cow_zero_page_no_decrement_cex :
    AllocatedPageInfo.copy_on_write (c3state.pageinfo (0x3000 / PAGE_SIZE)) = true ∧
    0 < AllocatedPageInfo.refcount (c3state.pageinfo (0x3000 / PAGE_SIZE)) ∧
    (MemoryMapper.cow_if_needed 1 c3state 0x400000).map
      (fun r => (r.1, AllocatedPageInfo.refcount (r.2.pageinfo (0x3000 / PAGE_SIZE))))
      = some (true, 1) := by
  refine ⟨by decide, by decide, by decide⟩

/-- **C3 (amended).** For a mapped `vaddr` whose backing frame is not the
zero page: COW with refcount > 0 copies to a freshly allocated frame, remaps
read-write to it and decrements the old frame's refcount (keeping its COW
bit); COW with refcount 0 clears the `PageInfo` word and remaps read-write in
place with no copy; otherwise nothing happens and false is returned.  A
zero-page backing always takes the copy path but skips the decrement. -/
theorem cow_if_needed_spec (fuel : Nat) (s : KState) (vaddr : Nat) (m : MappingPte)
    (hm : MemoryMapper.get_mapping s (page_align_down vaddr) = some m)
    (hm0 : m.physaddr ≠ 0) :
    (m.physaddr ≠ s.zero_page →
      AllocatedPageInfo.copy_on_write (s.pageinfo (m.physaddr / PAGE_SIZE)) = true →
      0 < AllocatedPageInfo.refcount (s.pageinfo (m.physaddr / PAGE_SIZE)) →
      s.physalloc_start ≤ m.physaddr →
      page_align_down m.physaddr ≠ 0 →
      ∀ dest s1, PhysAllocator.alloc fuel s = some (some dest, s1) →
        s1.pageinfo (m.physaddr / PAGE_SIZE) = s.pageinfo (m.physaddr / PAGE_SIZE) →
        ∃ s3, MemoryMapper.cow_if_needed fuel s vaddr = some (true, s3) ∧
          s3.pte (page_align_down vaddr / PAGE_SIZE)
            = some ⟨true, m.userspace_accessible, dest⟩ ∧
          s3.physContent (dest / PAGE_SIZE) = s.physContent (m.physaddr / PAGE_SIZE) ∧
          AllocatedPageInfo.refcount (s3.pageinfo (m.physaddr / PAGE_SIZE))
            = AllocatedPageInfo.refcount (s.pageinfo (m.physaddr / PAGE_SIZE)) - 1 ∧
          AllocatedPageInfo.copy_on_write (s3.pageinfo (m.physaddr / PAGE_SIZE)) = true) ∧
    (m.physaddr = s.zero_page →
      ∀ dest s1, PhysAllocator.alloc fuel s = some (some dest, s1) →
        s1.pageinfo (m.physaddr / PAGE_SIZE) = s.pageinfo (m.physaddr / PAGE_SIZE) →
        ∃ s3, MemoryMapper.cow_if_needed fuel s vaddr = some (true, s3) ∧
          s3.pte (page_align_down vaddr / PAGE_SIZE)
            = some ⟨true, m.userspace_accessible, dest⟩ ∧
          s3.physContent (dest / PAGE_SIZE) = s.physContent (m.physaddr / PAGE_SIZE) ∧
          s3.pageinfo (m.physaddr / PAGE_SIZE) = s.pageinfo (m.physaddr / PAGE_SIZE)) ∧
    (m.physaddr ≠ s.zero_page →
      AllocatedPageInfo.copy_on_write (s.pageinfo (m.physaddr / PAGE_SIZE)) = true →
      AllocatedPageInfo.refcount (s.pageinfo (m.physaddr / PAGE_SIZE)) = 0 →
      MemoryMapper.cow_if_needed fuel s vaddr = some (true,
        { s with
          pageinfo := Function.update s.pageinfo (m.physaddr / PAGE_SIZE) 0,
          pte := Function.update s.pte (page_align_down vaddr / PAGE_SIZE)
            (some ⟨true, m.userspace_accessible, m.physaddr⟩) })) ∧
    (m.physaddr ≠ s.zero_page →
      AllocatedPageInfo.copy_on_write (s.pageinfo (m.physaddr / PAGE_SIZE)) = false →
      MemoryMapper.cow_if_needed fuel s vaddr = some (false, s)) := by
  refine ⟨?_, ?_, ?_, ?_⟩
  · intro hz hcow hrc hge hal dest s1 halloc hs1
    obtain ⟨hpte, hpc, hzp, hps⟩ := alloc_preserves fuel s _ _ halloc
    have hgm1 : MemoryMapper.get_mapping s1 (page_align_down vaddr) = some m := by
      rw [get_mapping_pte_congr s s1 hpte, hm]
    unfold MemoryMapper.cow_if_needed
    dsimp only
    rw [hm]
    dsimp only
    rw [if_neg hm0, if_pos (Or.inr ⟨hcow, hrc⟩), halloc]
    dsimp only
    rw [move_page_eq s1 (page_align_down vaddr) dest _ m hgm1]
    rw [if_neg hz]
    dsimp only [MemoryMapper.mapping_to_flags]
    rw [free_decrement
      { s1 with
        pte := Function.update s1.pte (page_align_down vaddr / PAGE_SIZE)
          (some ⟨true, m.userspace_accessible, dest⟩),
        physContent := Function.update s1.physContent (dest / PAGE_SIZE)
          (s1.physContent (m.physaddr / PAGE_SIZE)) }
      m.physaddr (by dsimp only; rw [hps]; exact hge) hal
      (by dsimp only; rw [div_page_align_down, hs1]; exact hrc)]
    refine ⟨_, rfl, ?_, ?_, ?_, ?_⟩
    · dsimp only
      rw [Function.update_same]
    · dsimp only
      rw [Function.update_same, hpc]
    · dsimp only
      rw [div_page_align_down, Function.update_same, hs1]
      rw [refcount_set_refcount]
      have := refcount_lt (s.pageinfo (m.physaddr / PAGE_SIZE))
      omega
    · dsimp only
      rw [div_page_align_down, Function.update_same, hs1, cow_set_refcount, hcow]
  · intro hz dest s1 halloc hs1
    obtain ⟨hpte, hpc, hzp, hps⟩ := alloc_preserves fuel s _ _ halloc
    have hgm1 : MemoryMapper.get_mapping s1 (page_align_down vaddr) = some m := by
      rw [get_mapping_pte_congr s s1 hpte, hm]
    unfold MemoryMapper.cow_if_needed
    dsimp only
    rw [hm]
    dsimp only
    rw [if_neg hm0, if_pos (Or.inl hz), halloc]
    dsimp only
    rw [move_page_eq s1 (page_align_down vaddr) dest _ m hgm1]
    rw [if_pos hz]
    dsimp only [MemoryMapper.mapping_to_flags]
    refine ⟨_, rfl, ?_, ?_, ?_⟩
    · dsimp only
      rw [Function.update_same]
    · dsimp only
      rw [Function.update_same, hpc]
    · dsimp only
      exact hs1
  · intro hz hcow hrc0
    have hv22 : ¬ page_align_down vaddr / 2 ^ 22 = 0 := by
      have hvlt : ¬ page_align_down vaddr < 1 <<< 22 := by
        intro hlt
        unfold MemoryMapper.get_mapping at hm
        rw [if_pos hlt] at hm
        exact Option.noConfusion hm
      have h22 : (1 <<< 22 : Nat) = 4194304 := by decide
      have h22b : (2 : Nat) ^ 22 = 4194304 := by norm_num
      rw [h22] at hvlt
      rw [h22b]
      omega
    unfold MemoryMapper.cow_if_needed
    dsimp only
    rw [hm]
    dsimp only
    rw [if_neg hm0]
    rw [if_neg (by
      intro h
      rcases h with h1 | ⟨-, h2⟩
      · exact hz h1
      · omega)]
    rw [if_pos ⟨hcow, hrc0⟩]
    unfold MemoryMapper.map MemoryMapper.map_no_alloc
    rw [if_neg hv22]
    dsimp only [MemoryMapper.mapping_to_flags]
  · intro hz hcowf
    unfold MemoryMapper.cow_if_needed
    dsimp only
    rw [hm]
    dsimp only
    rw [if_neg hm0]
    rw [if_neg (by
      intro h
      rcases h with h1 | ⟨h1, -⟩
      · exact hz h1
      · rw [hcowf] at h1
        exact Bool.noConfusion h1)]
    rw [if_neg (by
      intro h
      rw [hcowf] at h
      exact Bool.noConfusion h.1)]

/-- **C3 (witness).** The decrement branch applied to a concrete COW frame
with refcount 2. -/
theorem cow_if_needed_spec_witness :
    ∃ s3, MemoryMapper.cow_if_needed 1 c3wstate 0x400000 = some (true, s3) ∧
      s3.pte (page_align_down 0x400000 / PAGE_SIZE)
        = some ⟨true, true, 0x8000⟩ ∧
      s3.physContent (0x8000 / PAGE_SIZE) = c3wstate.physContent (0x5000 / PAGE_SIZE) ∧
      AllocatedPageInfo.refcount (s3.pageinfo (0x5000 / PAGE_SIZE))
        = AllocatedPageInfo.refcount (c3wstate.pageinfo (0x5000 / PAGE_SIZE)) - 1 ∧
      AllocatedPageInfo.copy_on_write (s3.pageinfo (0x5000 / PAGE_SIZE)) = true :=
  (cow_if_needed_spec 1 c3wstate 0x400000 ⟨false, true, 0x5000⟩ rfl (by decide)).1
    (by decide) (by decide) (by decide) (by decide) (by decide)
    0x8000 c3wstate1 rfl (by decide)

end Ros
